import Mathlib

/-!
Verification development for the request/pagination orchestration layer of a
market-data API client (source: `src/endpoints/base_endpoint.py`).

The shallow embedding models:
  * JSON-like values (`JVal`) as returned by the upstream API;
  * Python `dict` query-parameter mappings as insertion-ordered association
    lists (`Params`) with lookup / in-place update / delete;
  * `datetime.strptime(s, "%Y-%m-%d")` as `parseDate` (proleptic Gregorian
    ordinal, matching CPython: exactly four year digits, one or two month and
    day digits, calendar validity, bounded by year 9999);
  * `datetime.strftime("%Y-%m-%d")` as `formatOrd`;
  * `BaseEndpoint._chunk_date_range` as `_chunk_date_range` (the while loop
    becomes fuel recursion; CPython raises OverflowError when a tentative
    chunk end passes `datetime.max`, modelled by `PyErr.overflowError`);
  * `BaseEndpoint._paginated_request` as `_paginated_request`, parameterised
    by an abstract request issuer standing for `self._request(method,
    endpoint, chunk_params)`; the run records the list of chunk parameter
    mappings handed to the issuer, the final value of the caller-supplied
    `params` dict (the source mutates it in place), and the outcome;
  * `BaseEndpoint._request` as `_request`, parameterised by an abstract
    transport standing for `requests.get` / `requests.post`; the run records
    the outbound HTTP requests.
-/

namespace TM

/-- JSON-like values: the payloads exchanged with the upstream API. -/
inductive JVal where
  | null : JVal
  | bool : Bool → JVal
  | num : Int → JVal
  | str : String → JVal
  | arr : List JVal → JVal
  | obj : List (String × JVal) → JVal
  deriving Repr

/-- Python errors that the embedded code can raise. -/
inductive PyErr where
  | valueError : String → PyErr
  | typeError : PyErr
  | overflowError : PyErr
  | nonterm : PyErr
  | requestFailure : String → Option Nat → List (String × String) → Option String → PyErr
  | jsonDecodeError : PyErr
  deriving Repr, DecidableEq

/-- Query-parameter mapping, modelling a Python `dict` (insertion ordered). -/
abbrev Params := List (String × JVal)

/-- Dict lookup: `params.get(k)` / `params[k]`. -/
def plookup : Params → String → Option JVal
  | [], _ => none
  | kv :: rest, k => if kv.1 = k then some kv.2 else plookup rest k

/-- Dict assignment `params[k] = v`: update in place if the key exists,
otherwise append at the end (Python insertion order). -/
def pset : Params → String → JVal → Params
  | [], k, v => [(k, v)]
  | kv :: rest, k, v => if kv.1 = k then (k, v) :: rest else kv :: pset rest k v

/-- Dict deletion `del params[k]`. -/
def pdel : Params → String → Params
  | [], _ => []
  | kv :: rest, k => if kv.1 = k then pdel rest k else kv :: pdel rest k

/-- Membership test `k in params`. -/
def pmem (p : Params) (k : String) : Bool := (plookup p k).isSome

/-- `dict.update`: fold the assignments of `kvs` into `m` left to right. -/
def dictUpdate (m : Params) (kvs : Params) : Params :=
  kvs.foldl (fun acc kv => pset acc kv.1 kv.2) m

/-- Python truthiness of a JSON value (`if data:` and friends). -/
def truthyJ : JVal → Bool
  | .null => false
  | .bool b => b
  | .num n => n != 0
  | .str s => s != ""
  | .arr xs => !xs.isEmpty
  | .obj kvs => !kvs.isEmpty

/-- Truthiness of an optional value (`None` is falsy). -/
def jot : Option JVal → Bool
  | none => false
  | some v => truthyJ v

/-! ## Calendar model (CPython `datetime`) -/

/-- Gregorian leap-year rule. -/
def isLeap (y : Nat) : Bool := y % 4 == 0 && (y % 100 != 0 || y % 400 == 0)

/-- Length of month `m` of year `y`. -/
def daysInMonth (y m : Nat) : Nat :=
  if m = 2 then (if isLeap y then 29 else 28)
  else if m = 4 ∨ m = 6 ∨ m = 9 ∨ m = 11 then 30 else 31

/-- Days in year `y` before month `m`. -/
def daysBeforeMonth (y m : Nat) : Nat :=
  ((List.range (m - 1)).map (fun i => daysInMonth y (i + 1))).sum

/-- Days before January 1 of year `y` in the proleptic Gregorian calendar. -/
def daysBeforeYear (y : Nat) : Nat :=
  365 * (y - 1) + (y - 1) / 4 + (y - 1) / 400 - (y - 1) / 100

/-- `date(y, m, d).toordinal()`: day 1 is 0001-01-01. -/
def toOrdinal (y m d : Nat) : Nat := daysBeforeYear y + daysBeforeMonth y m + d

/-- `date.max.toordinal()`: the ordinal of 9999-12-31, the largest date a
CPython `datetime` can represent. -/
def maxOrdinal : Nat := 3652059

/-- Numeric value of a decimal digit character. -/
def digitVal (c : Char) : Option Nat := if c.isDigit then some (c.toNat - 48) else none

/-- Read a one- or two-digit number the way the `%m` / `%d` directives of
`_strptime` do: at most two digits, and a two-digit read must not be followed
by a further digit (that input is rejected by the full-match requirement). -/
def readNum2 : List Char → Option (Nat × List Char)
  | [] => none
  | [a] => (digitVal a).map (fun v => (v, ([] : List Char)))
  | a :: b :: rest =>
    match digitVal a, digitVal b with
    | some va, some vb =>
      match rest with
      | c :: _ => if c.isDigit then none else some (10 * va + vb, rest)
      | [] => some (10 * va + vb, ([] : List Char))
    | some va, none => some (va, b :: rest)
    | none, _ => none

/-- `datetime.strptime(s, "%Y-%m-%d")`: exactly four year digits, one or two
month and day digits, nothing left over, and calendar validity (month range,
day range for the month, year at least `MINYEAR = 1`). -/
def parseYmd (s : String) : Option (Nat × Nat × Nat) :=
  match s.toList with
  | a :: b :: c :: d :: '-' :: rest =>
    match digitVal a, digitVal b, digitVal c, digitVal d with
    | some va, some vb, some vc, some vd =>
      let y := 1000 * va + 100 * vb + 10 * vc + vd
      match readNum2 rest with
      | some (m, '-' :: rest2) =>
        match readNum2 rest2 with
        | some (dd, []) =>
          if 1 ≤ y ∧ 1 ≤ m ∧ m ≤ 12 ∧ 1 ≤ dd ∧ dd ≤ daysInMonth y m then
            some (y, m, dd)
          else none
        | _ => none
      | _ => none
    | _, _, _, _ => none
  | _ => none

/-- Parse a date string to its ordinal (the embedding keeps dates as
ordinals, which is what `datetime` subtraction and `timedelta` addition act
on). -/
def parseDate (s : String) : Option Nat :=
  (parseYmd s).map (fun t => toOrdinal t.1 t.2.1 t.2.2)

/-- Inverse of `toOrdinal` (civil-from-days algorithm, era arithmetic). -/
def fromOrdinal (n : Nat) : Nat × Nat × Nat :=
  let z := n + 305
  let era := z / 146097
  let doe := z % 146097
  let yoe := (doe - doe / 1460 + doe / 36524 - doe / 146096) / 365
  let y := yoe + era * 400
  let doy := doe - (365 * yoe + yoe / 4 - yoe / 100)
  let mp := (5 * doy + 2) / 153
  let d := doy - (153 * mp + 2) / 5 + 1
  let m := if mp < 10 then mp + 3 else mp - 9
  (if m ≤ 2 then y + 1 else y, m, d)

/-- Zero-pad to two digits. -/
def pad2 (n : Nat) : String := if n < 10 then "0" ++ toString n else toString n

/-- Zero-pad to four digits. -/
def pad4 (n : Nat) : String :=
  if n < 10 then "000" ++ toString n
  else if n < 100 then "00" ++ toString n
  else if n < 1000 then "0" ++ toString n
  else toString n

/-- `datetime.strftime("%Y-%m-%d")` applied to the date with ordinal `n`. -/
def formatOrd (n : Nat) : String :=
  let ymd := fromOrdinal n
  pad4 ymd.1 ++ "-" ++ pad2 ymd.2.1 ++ "-" ++ pad2 ymd.2.2

/-! ## `_chunk_date_range` -/

/-- A date window handed around by the pagination loop: the values bound to
`startDate` / `endDate` for one chunk (`None` when a bound is absent). -/
abbrev Window := Option JVal × Option JVal

/-- Format an ordinal-level window as the chunker appends it (two
`strftime("%Y-%m-%d")` strings). -/
def fmtWin (w : Nat × Nat) : Window :=
  (some (JVal.str (formatOrd w.1)), some (JVal.str (formatOrd w.2)))

/-- The `while chunk_start < end` loop of `_chunk_date_range`, on ordinals.
Each iteration computes `chunk_end = min(chunk_start + timedelta(days=max_days),
end)`; constructing `chunk_start + timedelta(days=max_days)` raises
OverflowError in CPython when the result passes `datetime.max`. The loop is
given fuel; exhausting it (only possible when `max_days = 0`, where the
source loops forever) is reported as `PyErr.nonterm`. -/
def chunkLoop (e max_days : Nat) : Nat → Nat → Except PyErr (List (Nat × Nat))
  | 0, s => if s < e then .error .nonterm else .ok []
  | fuel + 1, s =>
    if s < e then
      if maxOrdinal < s + max_days then .error .overflowError
      else
        let ce := min (s + max_days) e
        match chunkLoop e max_days fuel ce with
        | .error err => .error err
        | .ok ws => .ok ((s, ce) :: ws)
    else .ok []

/-- `BaseEndpoint._chunk_date_range(startDate, endDate, max_days)`.

Mirrors the source: falsy (`None` or empty) inputs and `ValueError` from
`strptime` pass the pair through unchanged; `strptime` on a non-string raises
`TypeError` (only `ValueError` is caught); a range of at most `max_days` days
is returned as a single window; otherwise the loop splits it, formatting each
ordinal pair back to strings (the source formats at append time, which is the
same pure map). -/
def _chunk_date_range (startDate endDate : Option JVal) (max_days : Nat) :
    Except PyErr (List Window) :=
  if !jot startDate || !jot endDate then .ok [(startDate, endDate)]
  else
    match startDate with
    | some (JVal.str ss) =>
      match parseDate ss with
      | none => .ok [(startDate, endDate)]
      | some s =>
        match endDate with
        | some (JVal.str es) =>
          match parseDate es with
          | none => .ok [(startDate, endDate)]
          | some e =>
            if (e : Int) - (s : Int) ≤ (max_days : Int) then .ok [(startDate, endDate)]
            else
              match chunkLoop e max_days (e - s + 1) s with
              | .error err => .error err
              | .ok ws => .ok (ws.map fmtWin)
        | _ => .error .typeError
    | _ => .error .typeError

/-! ## `_paginated_request` -/

/-- The `endpoint_limits` table of `_paginated_request`. -/
def endpoint_limits : List (String × Int) :=
  [("daily-ohlcv", 100),
   ("hourly-ohlcv", 1000),
   ("trader-grades", 1000),
   ("investor-grades", 1000),
   ("market-metrics", 1000),
   ("trader-indices", 1000),
   ("trading-signals", 1000),
   ("default", 1000)]

/-- Lookup in the limits table (`dict.get` / `dict[k]`). -/
def lookupLimit (l : List (String × Int)) (k : String) : Option Int :=
  (l.find? (fun kv => kv.1 == k)).map (fun kv => kv.2)

/-- The effective limit: `custom_limit` if given, else
`endpoint_limits.get(endpoint, endpoint_limits["default"])`. -/
def resolvedLimit (endpoint : String) (custom_limit : Option Int) : Int :=
  match custom_limit with
  | some l => l
  | none => (lookupLimit endpoint_limits endpoint).getD
      ((lookupLimit endpoint_limits "default").getD 0)

/-- The in-place mutation `_paginated_request` performs on the caller's
`params` dict before the loop: `params["limit"] = limit` followed by
`if "page" in params: del params["page"]`. -/
def setupParams (params0 : Params) (limit : Int) : Params :=
  let p1 := pset params0 "limit" (JVal.num limit)
  if pmem p1 "page" then pdel p1 "page" else p1

/-- Date-chunk computation of `_paginated_request`: extract `startDate` /
`endDate` from the original params; if either is falsy use the single
implicit window, else delegate to `_chunk_date_range`. -/
def dateChunksE (params0 : Params) (max_days : Nat) : Except PyErr (List Window) :=
  let startDate := plookup params0 "startDate"
  let endDate := plookup params0 "endDate"
  if !jot startDate || !jot endDate then .ok [(startDate, endDate)]
  else _chunk_date_range startDate endDate max_days

/-- Per-chunk parameter dict: `params.copy()`, then the chunk bounds (only
the truthy ones), then `limit`, then `page = 0`. -/
def chunkParams (params : Params) (limit : Int) (w : Window) : Params :=
  let cp := params
  let cp := if jot w.1 then pset cp "startDate" (w.1.getD JVal.null) else cp
  let cp := if jot w.2 then pset cp "endDate" (w.2.getD JVal.null) else cp
  let cp := pset cp "limit" (JVal.num limit)
  pset cp "page" (JVal.num 0)

/-- `all_data.extend(data)` guarded by `if data:`. Extending from a
non-iterable truthy value raises `TypeError`; strings iterate as characters
and dicts as their keys, like in Python. -/
def extendData (allData : List JVal) (data : JVal) : Except PyErr (List JVal) :=
  if truthyJ data = false then .ok allData
  else
    match data with
    | .arr xs => .ok (allData ++ xs)
    | .str s => .ok (allData ++ s.toList.map (fun c => JVal.str (String.mk [c])))
    | .obj kvs => .ok (allData ++ kvs.map (fun kv => JVal.str kv.1))
    | _ => .error .typeError

/-- One loop body after a successful request: extract `data` and the sibling
metadata keys when the response is a mapping (else the whole response is the
data payload), merge the metadata, and extend the accumulator. -/
def stepResp (resp : JVal) (allData : List JVal) (meta : Params) :
    Except PyErr (List JVal × Params) :=
  let dm : JVal × Params :=
    match resp with
    | .obj kvs =>
      ((plookup kvs "data").getD (JVal.arr []),
       let m := kvs.filter (fun kv => kv.1 != "data")
       if m.isEmpty then meta else dictUpdate meta m)
    | _ => (resp, meta)
  match extendData allData dm.1 with
  | .error e => .error e
  | .ok ad => .ok (ad, dm.2)

/-- The chunk loop of `_paginated_request`: issue one request per window in
order, stopping at the first raised failure. Returns the chunk parameter
dicts handed to the issuer (in order, including the failing one) and either
the accumulated `(all_data, combined_meta)` or the propagated error. -/
def runChunks (issue : Params → Except PyErr JVal) (params : Params) (limit : Int) :
    List Window → List JVal → Params → List Params × Except PyErr (List JVal × Params)
  | [], allData, meta => ([], .ok (allData, meta))
  | w :: rest, allData, meta =>
    let cp := chunkParams params limit w
    match issue cp with
    | .error e => ([cp], .error e)
    | .ok resp =>
      match stepResp resp allData meta with
      | .error e => ([cp], .error e)
      | .ok adm =>
        let r := runChunks issue params limit rest adm.1 adm.2
        (cp :: r.1, r.2)

/-- Head-of-list test `all_data and isinstance(all_data[0], dict)`. -/
def headIsObj : List JVal → Bool
  | JVal.obj _ :: _ => true
  | _ => false

/-- The final response construction of `_paginated_request`. -/
def finalResponse (allData : List JVal) (meta : Params) : JVal :=
  if meta.isEmpty = false then JVal.obj (pset meta "data" (JVal.arr allData))
  else if headIsObj allData then JVal.obj [("data", JVal.arr allData)]
  else JVal.arr allData

/-- Observable outcome of one `_paginated_request` call: the chunk parameter
dicts handed to the request issuer, the returned value or raised error, and
the caller-visible final state of the `params` dict it mutates. -/
structure PagRun where
  issued : List Params
  result : Except PyErr JVal
  finalParams : Params
  deriving Repr

/-- `BaseEndpoint._paginated_request(method, endpoint, params, max_days,
custom_limit)`. `issue` abstracts `self._request(method, endpoint, ·)`. -/
def _paginated_request (issue : Params → Except PyErr JVal) (endpoint : String)
    (params : Option Params) (max_days : Nat) (custom_limit : Option Int) : PagRun :=
  let params0 := params.getD []
  let limit := resolvedLimit endpoint custom_limit
  let params2 := setupParams params0 limit
  match dateChunksE params0 max_days with
  | .error e => ⟨[], .error e, params2⟩
  | .ok chunks =>
    match runChunks issue params2 limit chunks [] [] with
    | (tr, .error e) => ⟨tr, .error e, params2⟩
    | (tr, .ok adm) => ⟨tr, .ok (finalResponse adm.1 adm.2), params2⟩

/-! ## `_request` -/

/-- An HTTP response as seen through the `requests` library: status code,
headers, body text, and the JSON parse of the body (`none` when the body is
not valid JSON, in which case `response.json()` raises). -/
structure TransportResp where
  status : Nat
  headers : List (String × String)
  text : String
  json : Option JVal
  deriving Repr

/-- Outcome of one transport call: a response, or a network-level
`requests.exceptions.RequestException` with no response attached. -/
inductive TransportOutcome where
  | ok : TransportResp → TransportOutcome
  | netErr : String → TransportOutcome
  deriving Repr

/-- An outbound HTTP request as `_request` constructs it: `requests.get(url,
headers=headers, params=params)` or `requests.post(url, headers=headers,
json=json_data)`. -/
inductive HttpReq where
  | get : String → List (String × String) → Option Params → HttpReq
  | post : String → List (String × String) → Option JVal → HttpReq
  deriving Repr

/-- The headers `_request` always sends. -/
def baseHeaders (api_key : String) : List (String × String) :=
  [("accept", "application/json"), ("x-api-key", api_key), ("x-integration", "langchain")]

/-- Response handling of `_request`: `raise_for_status()` raises exactly for
the client-error and server-error ranges, `400 <= status < 600`, with a
failure carrying the status, headers and body (a status of 600 or more falls
through); otherwise `response.json()` is returned, itself raising when the
body is not valid JSON. A transport-level failure propagates with no
response data. The `status_code >= 400` test in the source is logging only.
-/
def handleOutcome : TransportOutcome → Except PyErr JVal
  | .netErr msg => .error (.requestFailure msg none [] none)
  | .ok r =>
    if 400 ≤ r.status ∧ r.status < 600 then
      .error (.requestFailure "HTTP error" (some r.status) r.headers (some r.text))
    else
      match r.json with
      | some v => .ok v
      | none => .error .jsonDecodeError

/-- Python `str.lower()` (ASCII case folding, as applied to method names). -/
def pyLower (s : String) : String := String.mk (s.toList.map Char.toLower)

/-- `BaseEndpoint._request(method, endpoint, params, json_data)`. `transport`
abstracts the network; the first component is the list of outbound requests
actually made (empty when the method is unsupported, a singleton otherwise:
the source never retries). -/
def _request (transport : HttpReq → TransportOutcome) (base_url api_key : String)
    (method endpoint : String) (params : Option Params) (json_data : Option JVal) :
    List HttpReq × Except PyErr JVal :=
  let url := base_url ++ "/" ++ endpoint
  let headers := baseHeaders api_key
  if pyLower method = "get" then
    let req := HttpReq.get url headers params
    ([req], handleOutcome (transport req))
  else if pyLower method = "post" then
    let req := HttpReq.post url (headers ++ [("content-type", "application/json")]) json_data
    ([req], handleOutcome (transport req))
  else
    ([], .error (.valueError ("Unsupported HTTP method: " ++ method)))

/-! ## Observation functions used by the statements -/

/-- First window starts at `s` and every consecutive pair of windows shares
its boundary ordinal. -/
def chainFrom (s : Nat) : List (Nat × Nat) → Prop
  | [] => True
  | w :: rest => w.1 = s ∧ chainFrom w.2 rest

/-- The association list has no repeated keys (true of any mapping obtained
from a Python dict / parsed JSON object). -/
def keysNodup (kvs : List (String × JVal)) : Prop := (kvs.map Prod.fst).Nodup

/-- A well-formed mapping response: a dict whose `data` key, when present,
holds an array. -/
def GoodResp (r : Except PyErr JVal) : Prop :=
  ∃ kvs, r = .ok (JVal.obj kvs) ∧ keysNodup kvs ∧
    (plookup kvs "data" = none ∨ ∃ ds, plookup kvs "data" = some (JVal.arr ds))

/-- An issuer all of whose responses are well-formed mapping responses. -/
def GoodIssuer (issue : Params → Except PyErr JVal) : Prop :=
  ∀ p, GoodResp (issue p)

/-- The key/value list of a mapping response (empty otherwise). -/
def respKvs : Except PyErr JVal → List (String × JVal)
  | .ok (JVal.obj kvs) => kvs
  | _ => []

/-- The data records a chunk request contributes: the `data` array of its
mapping response (empty when absent). -/
def chunkData (issue : Params → Except PyErr JVal) (cp : Params) : List JVal :=
  match plookup (respKvs (issue cp)) "data" with
  | some (JVal.arr ds) => ds
  | _ => []

/-- The metadata a chunk request contributes: the non-`data` keys of its
mapping response. -/
def chunkMeta (issue : Params → Except PyErr JVal) (cp : Params) : Params :=
  (respKvs (issue cp)).filter (fun kv => kv.1 != "data")

/-- First-some from the right: `lastMetaValue metas k` is the value of `k`
in the latest of the mappings `metas` that contains `k`. -/
def lastMetaValue : List Params → String → Option JVal
  | [], _ => none
  | m :: rest, k =>
    match lastMetaValue rest k with
    | some v => some v
    | none => plookup m k

/-- Left-biased choice on optional values. -/
def oOr (a b : Option JVal) : Option JVal :=
  match a with
  | some v => some v
  | none => b

/-- The record sequence of an aggregated response (the `data` array of a
mapping, or the bare array). -/
def getData : JVal → List JVal
  | .obj kvs =>
    match plookup kvs "data" with
    | some (JVal.arr ds) => ds
    | _ => []
  | .arr ds => ds
  | _ => []

/-- A top-level key of an aggregated mapping response. -/
def getKey (r : JVal) (k : String) : Option JVal :=
  match r with
  | .obj kvs => plookup kvs k
  | _ => none

/-! ## Concrete issuers and transports used for evaluation -/

/-- Test whether the `startDate` entry of a parameter dict is the given
string. -/
def startDateIs (p : Params) (s : String) : Bool :=
  match plookup p "startDate" with
  | some (JVal.str s2) => s2 == s
  | _ => false

/-- An issuer whose two distinct mapping responses (keyed on the chunk start
date) exercise the metadata last-write-wins merge. -/
def lwwIssuer : Params → Except PyErr JVal := fun p =>
  if startDateIs p "2023-06-30" then
    .ok (JVal.obj [("note", JVal.str "b"), ("data", JVal.arr [JVal.num 2])])
  else
    .ok (JVal.obj [("note", JVal.str "a"), ("data", JVal.arr [JVal.num 1])])

/-- An issuer that raises a transport failure on the chunk starting
2023-01-30 and succeeds elsewhere. -/
def failIssuer : Params → Except PyErr JVal := fun p =>
  if startDateIs p "2023-01-30" then .error (.requestFailure "boom" none [] none)
  else .ok (JVal.obj [("data", JVal.arr [JVal.num 1])])

/-- An issuer whose lone response carries one metadata key. -/
def metaIssuer : Params → Except PyErr JVal := fun _ =>
  .ok (JVal.obj [("data", JVal.arr [JVal.num 1]), ("total", JVal.num 5)])

/-- A transport whose every response is HTTP 500. -/
def t500 : HttpReq → TransportOutcome := fun _ => .ok ⟨500, [], "oops", none⟩

/-- A transport whose every response has the nonstandard status 999 with a
valid JSON body (`raise_for_status` does not raise outside 400..599). -/
def t999 : HttpReq → TransportOutcome := fun _ => .ok ⟨999, [], "{}", some (JVal.obj [])⟩

/-- A transport whose every response is HTTP 200 with a body that is not
valid JSON. -/
def t200bad : HttpReq → TransportOutcome := fun _ => .ok ⟨200, [], "not json", none⟩

/-! ## Dictionary lemmas -/

theorem plookup_pset_self (p : Params) (k : String) (v : JVal) :
    plookup (pset p k v) k = some v := by
  induction p with
  | nil => simp [pset, plookup]
  | cons kv rest ih =>
    by_cases h : kv.1 = k
    · simp [pset, h, plookup]
    · simp [pset, h, plookup, ih]

theorem plookup_pset_ne (p : Params) (k k' : String) (v : JVal) (h : k' ≠ k) :
    plookup (pset p k v) k' = plookup p k' := by
  induction p with
  | nil => simp [pset, plookup, Ne.symm h]
  | cons kv rest ih =>
    by_cases hk : kv.1 = k
    · subst hk
      simp [pset, plookup, Ne.symm h]
    · simp [pset, hk, plookup, ih]

theorem plookup_pdel_self (p : Params) (k : String) :
    plookup (pdel p k) k = none := by
  induction p with
  | nil => simp [pdel, plookup]
  | cons kv rest ih =>
    by_cases h : kv.1 = k
    · simp [pdel, h, ih]
    · simp [pdel, h, plookup, ih]

theorem plookup_pdel_ne (p : Params) (k k' : String) (h : k' ≠ k) :
    plookup (pdel p k) k' = plookup p k' := by
  induction p with
  | nil => simp [pdel]
  | cons kv rest ih =>
    by_cases hk : kv.1 = k
    · subst hk
      simp [pdel, plookup, Ne.symm h, ih]
    · simp [pdel, hk, plookup, ih]

theorem pdel_pset_self (p : Params) (k : String) (v : JVal) :
    pdel (pset p k v) k = pdel p k := by
  induction p with
  | nil => simp [pset, pdel]
  | cons kv rest ih =>
    by_cases h : kv.1 = k
    · simp [pset, h, pdel]
    · simp [pset, h, pdel, ih]

theorem pdel_pset_ne (p : Params) (k k2 : String) (v : JVal) (h : k ≠ k2) :
    pdel (pset p k v) k2 = pset (pdel p k2) k v := by
  induction p with
  | nil => simp [pset, pdel, h]
  | cons kv rest ih =>
    by_cases hk : kv.1 = k
    · subst hk
      simp [pset, pdel, h, Ne.symm h]
    · by_cases hk2 : kv.1 = k2
      · simp [pset, pdel, hk, hk2, Ne.symm h, ih]
      · simp [pset, pdel, hk, hk2, ih]

theorem pdel_pdel_self (p : Params) (k : String) :
    pdel (pdel p k) k = pdel p k := by
  induction p with
  | nil => simp [pdel]
  | cons kv rest ih =>
    by_cases h : kv.1 = k
    · simp [pdel, h, ih]
    · simp [pdel, h, ih]

theorem pdel_of_not_mem (p : Params) (k : String) (h : pmem p k = false) :
    pdel p k = p := by
  induction p with
  | nil => simp [pdel]
  | cons kv rest ih =>
    by_cases hk : kv.1 = k
    · exfalso
      simp [pmem, plookup, hk] at h
    · simp only [pmem, plookup, hk, if_false] at h
      simp [pdel, hk, ih h]

theorem setupParams_eq (p : Params) (L : Int) :
    setupParams p L = pdel (pset p "limit" (JVal.num L)) "page" := by
  unfold setupParams
  by_cases h : pmem (pset p "limit" (JVal.num L)) "page"
  · simp [h]
  · simp only [Bool.not_eq_true] at h
    simp [h, pdel_of_not_mem _ _ h]

theorem plookup_eq_none_of_not_mem (p : Params) (k : String)
    (h : k ∉ p.map Prod.fst) : plookup p k = none := by
  induction p with
  | nil => rfl
  | cons kv rest ih =>
    simp only [List.map_cons, List.mem_cons] at h
    push_neg at h
    simp [plookup, Ne.symm h.1, ih h.2]

theorem oOr_assoc (a b c : Option JVal) : oOr (oOr a b) c = oOr a (oOr b c) := by
  cases a <;> cases b <;> rfl

theorem plookup_dictUpdate (kvs : Params) (m : Params) (k : String)
    (h : keysNodup kvs) :
    plookup (dictUpdate m kvs) k = oOr (plookup kvs k) (plookup m k) := by
  induction kvs generalizing m with
  | nil => simp [dictUpdate, plookup, oOr]
  | cons kv rest ih =>
    have hnd : keysNodup rest ∧ kv.1 ∉ rest.map Prod.fst := by
      unfold keysNodup at h ⊢
      simp only [List.map_cons, List.nodup_cons] at h
      exact ⟨h.2, h.1⟩
    have step : dictUpdate m (kv :: rest) = dictUpdate (pset m kv.1 kv.2) rest := rfl
    rw [step, ih _ hnd.1]
    by_cases hk : kv.1 = k
    · subst hk
      rw [plookup_eq_none_of_not_mem rest kv.1 hnd.2]
      simp [plookup, oOr, plookup_pset_self]
    · rw [plookup_pset_ne _ _ _ _ (fun hh => hk hh.symm)]
      simp [plookup, hk]

theorem keysNodup_filter (kvs : Params) (f : String × JVal → Bool)
    (h : keysNodup kvs) : keysNodup (kvs.filter f) := by
  unfold keysNodup at h ⊢
  exact h.sublist ((List.filter_sublist kvs).map Prod.fst)

/-! ## Chunk-loop specification -/

theorem chunkLoop_spec (e N : Nat) (hN : 1 ≤ N) :
    ∀ fuel s, s < e → e ≤ s + fuel →
      (∀ k : Nat, s + k * N < e → s + k * N + N ≤ maxOrdinal) →
      ∃ ws, chunkLoop e N fuel s = .ok ws ∧ ws ≠ [] ∧ chainFrom s ws ∧
        (ws.getLast?).map Prod.snd = some e ∧
        ∀ w ∈ ws, w.1 ≤ w.2 ∧ w.2 ≤ w.1 + N := by
  intro fuel
  induction fuel with
  | zero => intro s hs hf _; omega
  | succ fuel ih =>
    intro s hs hf hov
    have hsafe : s + N ≤ maxOrdinal := by
      have := hov 0 (by simpa using hs)
      simpa using this
    by_cases hend : e ≤ s + N
    · -- final chunk: min(s + N, e) = e and the recursive call sees s = e
      have hmin : min (s + N) e = e := by omega
      refine ⟨[(s, e)], ?_, by simp, ⟨rfl, trivial⟩, by simp, ?_⟩
      · simp only [chunkLoop, if_pos hs, Nat.not_lt.mpr (le_refl e), hmin]
        have : chunkLoop e N fuel e = .ok [] := by
          cases fuel <;> simp [chunkLoop]
        rw [if_neg (by omega), this]
      · intro w hw
        simp only [List.mem_singleton] at hw
        subst hw
        constructor <;> omega
    · -- intermediate chunk: min(s + N, e) = s + N < e
      push_neg at hend
      have hmin : min (s + N) e = s + N := by omega
      have hov2 : ∀ k : Nat, s + N + k * N < e → s + N + k * N + N ≤ maxOrdinal := by
        intro k hk
        have hmul : (k + 1) * N = k * N + N := by ring
        have := hov (k + 1) (by omega)
        omega
      obtain ⟨ws, hws, hne, hchain, hlast, hspan⟩ :=
        ih (s + N) hend (by omega) hov2
      refine ⟨(s, s + N) :: ws, ?_, by simp, ⟨rfl, hchain⟩, ?_, ?_⟩
      · simp only [chunkLoop, if_pos hs, hmin, hws]
        rw [if_neg (by omega)]
      · cases ws with
        | nil => exact absurd rfl hne
        | cons b l =>
          rw [List.getLast?_cons_cons]
          exact hlast
      · intro w hw
        rcases List.mem_cons.mp hw with hw | hw
        · subst hw; constructor <;> omega
        · exact hspan w hw

/-! ## Run-level lemmas -/

theorem extendData_arr (allData : List JVal) (ds : List JVal) :
    extendData allData (JVal.arr ds) = .ok (allData ++ ds) := by
  cases ds with
  | nil => simp [extendData, truthyJ]
  | cons d l => simp [extendData, truthyJ]

theorem lastMetaValue_cons (m : Params) (rest : List Params) (k : String) :
    lastMetaValue (m :: rest) k = oOr (lastMetaValue rest k) (plookup m k) := by
  cases h : lastMetaValue rest k <;> simp [lastMetaValue, oOr, h]

theorem runChunks_mem (issue : Params → Except PyErr JVal) (params : Params) (limit : Int) :
    ∀ (chunks : List Window) (allData : List JVal) (meta : Params) (cp : Params),
      cp ∈ (runChunks issue params limit chunks allData meta).1 →
      ∃ w ∈ chunks, cp = chunkParams params limit w := by
  intro chunks
  induction chunks with
  | nil =>
    intro _ _ cp h
    simp [runChunks] at h
  | cons w rest ih =>
    intro allData meta cp h
    cases hiss : issue (chunkParams params limit w) with
    | error e =>
      simp only [runChunks, hiss] at h
      simp at h
      exact ⟨w, by simp, h⟩
    | ok resp =>
      cases hstep : stepResp resp allData meta with
      | error e =>
        simp only [runChunks, hiss, hstep] at h
        simp at h
        exact ⟨w, by simp, h⟩
      | ok adm =>
        simp only [runChunks, hiss, hstep] at h
        simp only [List.mem_cons] at h
        rcases h with h | h
        · exact ⟨w, by simp, h⟩
        · obtain ⟨w', hw', hcp⟩ := ih adm.1 adm.2 cp h
          exact ⟨w', by simp [hw'], hcp⟩

theorem runChunks_spec (issue : Params → Except PyErr JVal) (hgi : GoodIssuer issue)
    (params : Params) (limit : Int) :
    ∀ (chunks : List Window) (allData : List JVal) (meta : Params),
      ∃ ad m,
        runChunks issue params limit chunks allData meta
          = (chunks.map (chunkParams params limit), .ok (ad, m)) ∧
        ad = allData ++
          ((chunks.map (chunkParams params limit)).map (chunkData issue)).flatten ∧
        ∀ k, plookup m k =
          oOr (lastMetaValue ((chunks.map (chunkParams params limit)).map (chunkMeta issue)) k)
            (plookup meta k) := by
  intro chunks
  induction chunks with
  | nil =>
    intro allData meta
    exact ⟨allData, meta, rfl, by simp, fun k => by simp [lastMetaValue, oOr]⟩
  | cons w rest ih =>
    intro allData meta
    obtain ⟨kvs, hkvs, hnd, hdata⟩ := hgi (chunkParams params limit w)
    have hd : (plookup kvs "data").getD (JVal.arr []) =
        JVal.arr (chunkData issue (chunkParams params limit w)) := by
      unfold chunkData respKvs
      rw [hkvs]
      rcases hdata with hnone | ⟨ds, hds⟩
      · simp [hnone]
      · simp [hds]
    have hm : (kvs.filter (fun kv => kv.1 != "data")) =
        chunkMeta issue (chunkParams params limit w) := by
      unfold chunkMeta respKvs
      rw [hkvs]
    have hstep : stepResp (JVal.obj kvs) allData meta =
        .ok (allData ++ chunkData issue (chunkParams params limit w),
             if (chunkMeta issue (chunkParams params limit w)).isEmpty then meta
             else dictUpdate meta (chunkMeta issue (chunkParams params limit w))) := by
      simp only [stepResp]
      rw [hd, hm, extendData_arr]
    obtain ⟨ad, m, hrun, had, hmeta⟩ :=
      ih (allData ++ chunkData issue (chunkParams params limit w))
         (if (chunkMeta issue (chunkParams params limit w)).isEmpty then meta
          else dictUpdate meta (chunkMeta issue (chunkParams params limit w)))
    refine ⟨ad, m, ?_, ?_, ?_⟩
    · simp only [runChunks, hkvs, hstep, hrun]
      simp
    · rw [had]
      simp [List.append_assoc]
    · intro k
      rw [hmeta k]
      have hins : plookup
          (if (chunkMeta issue (chunkParams params limit w)).isEmpty then meta
           else dictUpdate meta (chunkMeta issue (chunkParams params limit w))) k =
          oOr (plookup (chunkMeta issue (chunkParams params limit w)) k) (plookup meta k) := by
        by_cases he : (chunkMeta issue (chunkParams params limit w)).isEmpty
        · rw [if_pos he]
          rw [List.isEmpty_iff] at he
          rw [he]
          rfl
        · rw [if_neg he]
          refine plookup_dictUpdate _ _ _ ?_
          rw [← hm]
          exact keysNodup_filter kvs _ hnd
      rw [hins, ← oOr_assoc]
      rw [List.map_cons, List.map_cons, lastMetaValue_cons]

theorem runChunks_failfast (issue : Params → Except PyErr JVal) (params : Params) (limit : Int) :
    ∀ (chunks : List Window) (j : Nat) (wj : Window) (e : PyErr)
      (allData : List JVal) (meta : Params),
      chunks[j]? = some wj →
      (∀ i w, i < j → chunks[i]? = some w → GoodResp (issue (chunkParams params limit w))) →
      issue (chunkParams params limit wj) = .error e →
      runChunks issue params limit chunks allData meta
        = ((chunks.take (j + 1)).map (chunkParams params limit), .error e) := by
  intro chunks
  induction chunks with
  | nil =>
    intro j wj e _ _ hj
    simp at hj
  | cons w rest ih =>
    intro j wj e allData meta hj hpre hfail
    cases j with
    | zero =>
      simp only [List.getElem?_cons_zero, Option.some.injEq] at hj
      subst hj
      simp only [runChunks, hfail]
      simp
    | succ j =>
      have hw0 : GoodResp (issue (chunkParams params limit w)) :=
        hpre 0 w (Nat.succ_pos j) (by simp)
      obtain ⟨kvs, hkvs, hnd, hdata⟩ := hw0
      have hd : (plookup kvs "data").getD (JVal.arr []) =
          JVal.arr (chunkData issue (chunkParams params limit w)) := by
        unfold chunkData respKvs
        rw [hkvs]
        rcases hdata with hnone | ⟨ds, hds⟩
        · simp [hnone]
        · simp [hds]
      have hstep : ∃ adm, stepResp (JVal.obj kvs) allData meta = .ok adm := by
        simp only [stepResp]
        rw [hd, extendData_arr]
        exact ⟨_, rfl⟩
      obtain ⟨adm, hstep⟩ := hstep
      simp only [runChunks, hkvs, hstep]
      rw [ih j wj e adm.1 adm.2 (by simpa using hj)
          (fun i w' hi hw' => hpre (i + 1) w' (by omega) (by simpa using hw')) hfail]
      simp

theorem resolvedLimit_table (ep : String) (cl : Option Int) :
    resolvedLimit ep cl = cl.getD (if ep = "daily-ohlcv" then 100 else 1000) := by
  cases cl with
  | some l => rfl
  | none =>
    simp only [resolvedLimit, Option.getD]
    by_cases h0 : ep = "daily-ohlcv"
    · subst h0; rfl
    have e0 : ("daily-ohlcv" == ep) = false := beq_eq_false_iff_ne.mpr (Ne.symm h0)
    by_cases h1 : ep = "hourly-ohlcv"
    · subst h1; rfl
    have e1 : ("hourly-ohlcv" == ep) = false := beq_eq_false_iff_ne.mpr (Ne.symm h1)
    by_cases h2 : ep = "trader-grades"
    · subst h2; rfl
    have e2 : ("trader-grades" == ep) = false := beq_eq_false_iff_ne.mpr (Ne.symm h2)
    by_cases h3 : ep = "investor-grades"
    · subst h3; rfl
    have e3 : ("investor-grades" == ep) = false := beq_eq_false_iff_ne.mpr (Ne.symm h3)
    by_cases h4 : ep = "market-metrics"
    · subst h4; rfl
    have e4 : ("market-metrics" == ep) = false := beq_eq_false_iff_ne.mpr (Ne.symm h4)
    by_cases h5 : ep = "trader-indices"
    · subst h5; rfl
    have e5 : ("trader-indices" == ep) = false := beq_eq_false_iff_ne.mpr (Ne.symm h5)
    by_cases h6 : ep = "trading-signals"
    · subst h6; rfl
    have e6 : ("trading-signals" == ep) = false := beq_eq_false_iff_ne.mpr (Ne.symm h6)
    by_cases h7 : ep = "default"
    · subst h7; rfl
    have e7 : ("default" == ep) = false := beq_eq_false_iff_ne.mpr (Ne.symm h7)
    simp [lookupLimit, endpoint_limits, List.find?, e0, e1, e2, e3, e4, e5, e6, e7, h0]

theorem paginated_finalParams (issue : Params → Except PyErr JVal) (ep : String)
    (pOpt : Option Params) (md : Nat) (cl : Option Int) :
    (_paginated_request issue ep pOpt md cl).finalParams
      = setupParams (pOpt.getD []) (resolvedLimit ep cl) := by
  cases hch : dateChunksE (pOpt.getD []) md with
  | error e => simp only [_paginated_request, hch]
  | ok chunks =>
    rcases hr : runChunks issue (setupParams (pOpt.getD []) (resolvedLimit ep cl))
        (resolvedLimit ep cl) chunks [] [] with ⟨tr, res⟩
    cases res <;> simp only [_paginated_request, hch, hr]

theorem paginated_issued (issue : Params → Except PyErr JVal) (ep : String)
    (pOpt : Option Params) (md : Nat) (cl : Option Int) (cp : Params)
    (h : cp ∈ (_paginated_request issue ep pOpt md cl).issued) :
    ∃ w, cp = chunkParams (setupParams (pOpt.getD []) (resolvedLimit ep cl))
      (resolvedLimit ep cl) w := by
  cases hch : dateChunksE (pOpt.getD []) md with
  | error e =>
    simp only [_paginated_request, hch] at h
    simp at h
  | ok chunks =>
    rcases hr : runChunks issue (setupParams (pOpt.getD []) (resolvedLimit ep cl))
        (resolvedLimit ep cl) chunks [] [] with ⟨tr, res⟩
    simp only [_paginated_request, hch, hr] at h
    have htr : cp ∈ tr := by
      cases res <;> simpa using h
    have := runChunks_mem issue _ _ chunks [] [] cp (by rw [hr]; exact htr)
    obtain ⟨w, _, hw⟩ := this
    exact ⟨w, hw⟩

/-! ## Claim theorems -/

/-- C6: for every combination of start and end date arguments (strings or
absent) where at least one is absent or fails to parse as a YYYY-MM-DD
calendar date, `_chunk_date_range` returns exactly the single-element
sequence `[(start, end)]` with both values unchanged, and never raises. -/
theorem chunk_date_range_passthrough
    (sd ed : Option JVal) (md : Nat)
    (hs : sd = none ∨ ∃ s, sd = some (JVal.str s))
    (he : ed = none ∨ ∃ s, ed = some (JVal.str s))
    (hbad : (sd = none ∨ ∃ s, sd = some (JVal.str s) ∧ parseDate s = none) ∨
            (ed = none ∨ ∃ s, ed = some (JVal.str s) ∧ parseDate s = none)) :
    _chunk_date_range sd ed md = .ok [(sd, ed)] := by
  rcases hs with rfl | ⟨ss, rfl⟩
  · simp [_chunk_date_range, jot]
  rcases he with rfl | ⟨es, rfl⟩
  · simp [_chunk_date_range, jot]
  by_cases hss : ss = ""
  · subst hss
    simp [_chunk_date_range, jot, truthyJ]
  by_cases hes : es = ""
  · subst hes
    simp [_chunk_date_range, jot, truthyJ]
  have hcond : (!jot (some (JVal.str ss)) || !jot (some (JVal.str es))) = false := by
    simp [jot, truthyJ, bne, hss, hes]
  rcases hbad with (hnone | ⟨s, hsome, hparse⟩) | (hnone | ⟨s, hsome, hparse⟩)
  · exact absurd hnone (by simp)
  · simp only [Option.some.injEq, JVal.str.injEq] at hsome
    subst hsome
    simp [_chunk_date_range, hcond, hparse]
  · exact absurd hnone (by simp)
  · simp only [Option.some.injEq, JVal.str.injEq] at hsome
    subst hsome
    cases hps : parseDate ss with
    | none => simp [_chunk_date_range, hcond, hps]
    | some s0 => simp [_chunk_date_range, hcond, hps, hparse]

/-- C6 witness: a malformed start date with a valid end date passes through
unchanged. -/
theorem chunk_date_range_passthrough_witness :
    _chunk_date_range (some (JVal.str "bad-date")) (some (JVal.str "2023-06-07")) 29
      = .ok [(some (JVal.str "bad-date"), some (JVal.str "2023-06-07"))] :=
  chunk_date_range_passthrough (some (JVal.str "bad-date")) (some (JVal.str "2023-06-07")) 29
    (Or.inr ⟨"bad-date", rfl⟩) (Or.inr ⟨"2023-06-07", rfl⟩)
    (Or.inl (Or.inr ⟨"bad-date", rfl, rfl⟩))

/-- C1 counterexample: both dates parse as YYYY-MM-DD with start before end
and maxSpanDays 29, yet `_chunk_date_range` raises OverflowError (CPython:
the tentative chunk end `chunk_start + timedelta(days=29)` passes
`datetime.max` before `min(..., end)` can clamp it) instead of returning the
claimed window sequence. -/
theorem chunk_date_range_overflow_cex :
    parseDate "9999-01-01" = some 3651695 ∧
    parseDate "9999-12-31" = some 3652059 ∧
    _chunk_date_range (some (JVal.str "9999-01-01")) (some (JVal.str "9999-12-31")) 29
      = .error PyErr.overflowError :=
  ⟨rfl, rfl, rfl⟩

/-- C1 (amended): for dates in canonical YYYY-MM-DD form with start ≤ end and
maxSpanDays N ≥ 1, and provided no intermediate chunk start plus N days
passes the maximal representable date 9999-12-31 (otherwise the source
raises OverflowError), `_chunk_date_range` returns a non-empty window
sequence whose first start is the start date, whose last end is the end
date, in which consecutive windows share their boundary date and no window
spans more than N days. -/
theorem chunk_date_range_coverage
    (ss es : String) (s e N : Nat)
    (hps : parseDate ss = some s) (hfs : formatOrd s = ss)
    (hpe : parseDate es = some e) (hfe : formatOrd e = es)
    (hse : s ≤ e) (hN : 1 ≤ N)
    (hov : ∀ k : Nat, s + k * N < e → s + k * N + N ≤ maxOrdinal) :
    ∃ ws : List (Nat × Nat),
      _chunk_date_range (some (JVal.str ss)) (some (JVal.str es)) N = .ok (ws.map fmtWin) ∧
      ws ≠ [] ∧ chainFrom s ws ∧ (ws.getLast?).map Prod.snd = some e ∧
      ∀ w ∈ ws, w.1 ≤ w.2 ∧ w.2 ≤ w.1 + N := by
  have hss : ss ≠ "" := by
    rintro rfl
    rw [show parseDate "" = none from rfl] at hps
    exact Option.noConfusion hps
  have hes : es ≠ "" := by
    rintro rfl
    rw [show parseDate "" = none from rfl] at hpe
    exact Option.noConfusion hpe
  have hcond : (!jot (some (JVal.str ss)) || !jot (some (JVal.str es))) = false := by
    simp [jot, truthyJ, bne, hss, hes]
  by_cases hle : (e : Int) - (s : Int) ≤ (N : Int)
  · refine ⟨[(s, e)], ?_, by simp, ⟨rfl, trivial⟩, by simp, ?_⟩
    · simp only [_chunk_date_range, hcond, Bool.false_eq_true, if_false, hps, hpe, if_pos hle]
      simp [fmtWin, hfs, hfe]
    · intro w hw
      simp only [List.mem_singleton] at hw
      subst hw
      constructor
      · exact hse
      · omega
  · have hlt : s + N < e := by omega
    obtain ⟨ws, hws, hne, hchain, hlast, hspan⟩ :=
      chunkLoop_spec e N hN (e - s + 1) s (by omega) (by omega) hov
    refine ⟨ws, ?_, hne, hchain, hlast, hspan⟩
    simp only [_chunk_date_range, hcond, Bool.false_eq_true, if_false, hps, hpe, if_neg hle, hws]

/-- C1 witness: the spec example `split("2023-06-01", "2023-07-15", 29)`. -/
theorem chunk_date_range_coverage_witness :
    parseDate "2023-06-01" = some 738672 ∧ formatOrd 738672 = "2023-06-01" ∧
    parseDate "2023-07-15" = some 738716 ∧ formatOrd 738716 = "2023-07-15" ∧
    ∃ ws : List (Nat × Nat),
      _chunk_date_range (some (JVal.str "2023-06-01")) (some (JVal.str "2023-07-15")) 29
        = .ok (ws.map fmtWin) ∧
      ws ≠ [] ∧ chainFrom 738672 ws ∧ (ws.getLast?).map Prod.snd = some 738716 ∧
      ∀ w ∈ ws, w.1 ≤ w.2 ∧ w.2 ≤ w.1 + 29 :=
  ⟨rfl, rfl, rfl, rfl,
   chunk_date_range_coverage "2023-06-01" "2023-07-15" 738672 738716 29 rfl rfl rfl rfl
     (by omega) (by omega) (by intro k hk; simp only [maxOrdinal]; omega)⟩

/-- C2: every chunk parameter mapping handed to the request issuer carries
`limit` equal to the resolved limit — `custom_limit` when provided, else the
table entry, which is 100 for daily-ohlcv and 1000 for every other endpoint
(the seven listed ones and the default alike); a caller-supplied `limit`
never survives. -/
theorem paginated_request_limit_override
    (issue : Params → Except PyErr JVal) (ep : String) (pOpt : Option Params)
    (md : Nat) (cl : Option Int) (cp : Params)
    (hcp : cp ∈ (_paginated_request issue ep pOpt md cl).issued) :
    plookup cp "limit" = some (JVal.num (resolvedLimit ep cl)) ∧
    resolvedLimit ep cl = cl.getD (if ep = "daily-ohlcv" then 100 else 1000) := by
  obtain ⟨w, rfl⟩ := paginated_issued issue ep pOpt md cl cp hcp
  constructor
  · simp only [chunkParams]
    rw [plookup_pset_ne _ _ _ _ (by decide), plookup_pset_self]
  · exact resolvedLimit_table ep cl

/-- C2 witness: a caller-supplied limit of 9 on the `tokens` endpoint is
replaced by the table default 1000 in the issued request. -/
theorem paginated_request_limit_override_witness :
    plookup [("limit", JVal.num 1000), ("page", JVal.num 0)] "limit"
      = some (JVal.num (resolvedLimit "tokens" none)) ∧
    resolvedLimit "tokens" none
      = Option.getD none (if "tokens" = "daily-ohlcv" then 100 else 1000) :=
  paginated_request_limit_override (fun _ => .error PyErr.typeError) "tokens"
    (some [("limit", JVal.num 9)]) 29 none [("limit", JVal.num 1000), ("page", JVal.num 0)]
    (by
      have h : (_paginated_request (fun _ => .error PyErr.typeError) "tokens"
          (some [("limit", JVal.num 9)]) 29 none).issued
          = [[("limit", JVal.num 1000), ("page", JVal.num 0)]] := rfl
      rw [h]
      exact List.mem_singleton.mpr rfl)

/-- C4: every chunk parameter mapping handed to the request issuer carries
`page = 0`, whatever the input params contained; moreover a caller-supplied
`page` entry, with any value, leaves the whole run (issued requests, result
and final params) identical to the run with no `page` entry at all, so no
input `page` value is ever forwarded. -/
theorem paginated_request_page_zero
    (issue : Params → Except PyErr JVal) (ep : String) (md : Nat) (cl : Option Int) :
    (∀ (pOpt : Option Params) (cp : Params),
        cp ∈ (_paginated_request issue ep pOpt md cl).issued →
        plookup cp "page" = some (JVal.num 0)) ∧
    (∀ (p : Params) (v : JVal),
        _paginated_request issue ep (some (pset p "page" v)) md cl
          = _paginated_request issue ep (some (pdel p "page")) md cl) := by
  constructor
  · intro pOpt cp hcp
    obtain ⟨w, rfl⟩ := paginated_issued issue ep pOpt md cl cp hcp
    simp only [chunkParams]
    rw [plookup_pset_self]
  · intro p v
    have hsd : plookup (pset p "page" v) "startDate" = plookup (pdel p "page") "startDate" := by
      rw [plookup_pset_ne _ _ _ _ (by decide), plookup_pdel_ne _ _ _ (by decide)]
    have hed : plookup (pset p "page" v) "endDate" = plookup (pdel p "page") "endDate" := by
      rw [plookup_pset_ne _ _ _ _ (by decide), plookup_pdel_ne _ _ _ (by decide)]
    have hch : dateChunksE (pset p "page" v) md = dateChunksE (pdel p "page") md := by
      simp only [dateChunksE]
      rw [hsd, hed]
    have hsetup : setupParams (pset p "page" v) (resolvedLimit ep cl)
        = setupParams (pdel p "page") (resolvedLimit ep cl) := by
      rw [setupParams_eq, setupParams_eq]
      have h1 : pdel (pset (pset p "page" v) "limit" (JVal.num (resolvedLimit ep cl))) "page"
          = pset (pdel (pset p "page" v) "page") "limit" (JVal.num (resolvedLimit ep cl)) :=
        pdel_pset_ne _ _ _ _ (by decide)
      have h2 : pdel (pset (pdel p "page") "limit" (JVal.num (resolvedLimit ep cl))) "page"
          = pset (pdel (pdel p "page") "page") "limit" (JVal.num (resolvedLimit ep cl)) :=
        pdel_pset_ne _ _ _ _ (by decide)
      rw [h1, h2, pdel_pset_self, pdel_pdel_self]
    simp only [_paginated_request, Option.getD_some]
    rw [hch, hsetup]

/-- C4 witness: an input `page = 7` becomes `page = 0` in the issued chunk
request. -/
theorem paginated_request_page_zero_witness :
    plookup [("limit", JVal.num 1000), ("page", JVal.num 0)] "page" = some (JVal.num 0) :=
  (paginated_request_page_zero (fun _ => .error PyErr.typeError) "price" 29 none).1
    (some [("page", JVal.num 7)]) [("limit", JVal.num 1000), ("page", JVal.num 0)]
    (by
      have h : (_paginated_request (fun _ => .error PyErr.typeError) "price"
          (some [("page", JVal.num 7)]) 29 none).issued
          = [[("limit", JVal.num 1000), ("page", JVal.num 0)]] := rfl
      rw [h]
      exact List.mem_singleton.mpr rfl)

/-- C9: `_paginated_request` mutates the caller-supplied params dict, and
only in the setup phase: after the call — whether it returns or raises, and
independently of the issuer — the dict has `limit` set to the resolved
internal limit, `page` deleted, and every other entry (including the
original `startDate` / `endDate`) unchanged; the per-chunk date bounds go
only into the per-chunk copies, never into the caller's dict. -/
theorem paginated_request_param_mutation
    (issue : Params → Except PyErr JVal) (ep : String) (p : Params) (md : Nat) (cl : Option Int) :
    (∀ k : String,
        plookup (_paginated_request issue ep (some p) md cl).finalParams k =
          if k = "limit" then some (JVal.num (resolvedLimit ep cl))
          else if k = "page" then none
          else plookup p k) ∧
    (∀ issue2 : Params → Except PyErr JVal,
        (_paginated_request issue2 ep (some p) md cl).finalParams
          = (_paginated_request issue ep (some p) md cl).finalParams) := by
  constructor
  · intro k
    rw [paginated_finalParams]
    simp only [Option.getD_some]
    rw [setupParams_eq]
    by_cases hk1 : k = "limit"
    · subst hk1
      rw [plookup_pdel_ne _ _ _ (by decide), plookup_pset_self]
      simp
    · by_cases hk2 : k = "page"
      · subst hk2
        rw [plookup_pdel_self]
        simp [hk1]
      · rw [plookup_pdel_ne _ _ _ hk2, plookup_pset_ne _ _ _ _ hk1]
        simp [hk1, hk2]
  · intro issue2
    rw [paginated_finalParams, paginated_finalParams]

theorem oOr_none_right (a : Option JVal) : oOr a none = a := by
  cases a <;> rfl

theorem getData_finalResponse (ad : List JVal) (m : Params) :
    getData (finalResponse ad m) = ad := by
  by_cases hm : m.isEmpty = false
  · simp only [finalResponse, hm, if_true]
    simp only [getData]
    rw [plookup_pset_self]
  · simp only [finalResponse, hm, if_false]
    by_cases hh : headIsObj ad = true
    · simp only [hh, if_true]
      simp [getData, plookup]
    · simp only [hh, if_false]
      simp [getData]

theorem getKey_finalResponse (ad : List JVal) (m : Params) (k : String) (hk : k ≠ "data")
    (v : JVal) (hv : plookup m k = some v) :
    getKey (finalResponse ad m) k = some v := by
  have hm : m.isEmpty = false := by
    cases m with
    | nil => simp [plookup] at hv
    | cons kv rest => rfl
  simp only [finalResponse, hm, if_true]
  simp only [getKey]
  rw [plookup_pset_ne _ _ _ _ hk, hv]

/-- C3: in a run whose every response is a mapping response (its `data`, when
present, an array), the aggregated result's record sequence is the
concatenation of the per-chunk data arrays in chunk-processing order, and
every non-`data` key supplied by any chunk appears in the result with the
value from the latest chunk that supplied it. -/
theorem paginated_request_concat_lww
    (issue : Params → Except PyErr JVal) (ep : String) (pOpt : Option Params)
    (md : Nat) (cl : Option Int) (r : JVal)
    (hgi : GoodIssuer issue)
    (hres : (_paginated_request issue ep pOpt md cl).result = .ok r) :
    getData r
      = ((_paginated_request issue ep pOpt md cl).issued.map (chunkData issue)).flatten ∧
    ∀ k v, k ≠ "data" →
      lastMetaValue ((_paginated_request issue ep pOpt md cl).issued.map (chunkMeta issue)) k
        = some v →
      getKey r k = some v := by
  cases hch : dateChunksE (pOpt.getD []) md with
  | error e =>
    rw [show (_paginated_request issue ep pOpt md cl).result = .error e by
      simp only [_paginated_request, hch]] at hres
    exact absurd hres (by simp)
  | ok chunks =>
    obtain ⟨ad, m, hrun, had, hmeta⟩ :=
      runChunks_spec issue hgi (setupParams (pOpt.getD []) (resolvedLimit ep cl))
        (resolvedLimit ep cl) chunks [] []
    have hissued : (_paginated_request issue ep pOpt md cl).issued
        = chunks.map (chunkParams (setupParams (pOpt.getD []) (resolvedLimit ep cl))
            (resolvedLimit ep cl)) := by
      simp only [_paginated_request, hch, hrun]
    have hresult : (_paginated_request issue ep pOpt md cl).result
        = .ok (finalResponse ad m) := by
      simp only [_paginated_request, hch, hrun]
    rw [hresult, Except.ok.injEq] at hres
    subst hres
    rw [hissued]
    constructor
    · rw [getData_finalResponse]
      simpa using had
    · intro k v hk hlast
      have h1 := hmeta k
      rw [show plookup ([] : Params) k = none from rfl, oOr_none_right, hlast] at h1
      exact getKey_finalResponse ad m k hk v h1

/-- C3 witness: the spec example — two chunks returning `note = "a"` then
`note = "b"` merge to `note = "b"` with the data arrays concatenated in
order. -/
theorem paginated_request_concat_lww_witness :
    GoodIssuer lwwIssuer ∧
    (getData (JVal.obj [("note", JVal.str "b"), ("data", JVal.arr [JVal.num 1, JVal.num 2])])
        = ((_paginated_request lwwIssuer "tokens"
              (some [("startDate", JVal.str "2023-06-01"), ("endDate", JVal.str "2023-07-15")])
              29 none).issued.map (chunkData lwwIssuer)).flatten ∧
      ∀ k v, k ≠ "data" →
        lastMetaValue ((_paginated_request lwwIssuer "tokens"
              (some [("startDate", JVal.str "2023-06-01"), ("endDate", JVal.str "2023-07-15")])
              29 none).issued.map (chunkMeta lwwIssuer)) k = some v →
        getKey (JVal.obj [("note", JVal.str "b"), ("data", JVal.arr [JVal.num 1, JVal.num 2])]) k
          = some v) :=
  have hgi : GoodIssuer lwwIssuer := by
    intro p
    unfold lwwIssuer
    cases h : startDateIs p "2023-06-30" with
    | true =>
      rw [if_pos rfl]
      exact ⟨_, rfl, by unfold keysNodup; decide, Or.inr ⟨_, rfl⟩⟩
    | false =>
      rw [if_neg (by simp)]
      exact ⟨_, rfl, by unfold keysNodup; decide, Or.inr ⟨_, rfl⟩⟩
  ⟨hgi, paginated_request_concat_lww lwwIssuer "tokens"
    (some [("startDate", JVal.str "2023-06-01"), ("endDate", JVal.str "2023-07-15")])
    29 none (JVal.obj [("note", JVal.str "b"), ("data", JVal.arr [JVal.num 1, JVal.num 2])])
    hgi rfl⟩

/-- C5: if the request for some chunk raises (all earlier chunks having
returned well-formed responses), `_paginated_request` raises that same
failure, the issued-request trace stops at the failing chunk (no requests
for the remaining chunks), and no aggregated result is returned. -/
theorem paginated_request_fail_fast
    (issue : Params → Except PyErr JVal) (ep : String) (pOpt : Option Params)
    (md : Nat) (cl : Option Int)
    (chunks : List Window) (j : Nat) (wj : Window) (e : PyErr)
    (hch : dateChunksE (pOpt.getD []) md = .ok chunks)
    (hj : chunks[j]? = some wj)
    (hpre : ∀ i w, i < j → chunks[i]? = some w →
        GoodResp (issue (chunkParams (setupParams (pOpt.getD []) (resolvedLimit ep cl))
          (resolvedLimit ep cl) w)))
    (hfail : issue (chunkParams (setupParams (pOpt.getD []) (resolvedLimit ep cl))
        (resolvedLimit ep cl) wj) = .error e) :
    (_paginated_request issue ep pOpt md cl).result = .error e ∧
    (_paginated_request issue ep pOpt md cl).issued
      = (chunks.take (j + 1)).map (chunkParams (setupParams (pOpt.getD []) (resolvedLimit ep cl))
          (resolvedLimit ep cl)) := by
  have hrc := runChunks_failfast issue (setupParams (pOpt.getD []) (resolvedLimit ep cl))
    (resolvedLimit ep cl) chunks j wj e [] [] hj hpre hfail
  constructor
  · simp only [_paginated_request, hch, hrc]
  · simp only [_paginated_request, hch, hrc]

/-- C5 witness: of three chunks, the second fails; the failure propagates and
only two requests are issued. -/
theorem paginated_request_fail_fast_witness :
    (_paginated_request failIssuer "tokens"
        (some [("startDate", JVal.str "2023-01-01"), ("endDate", JVal.str "2023-03-15")])
        29 none).result = .error (.requestFailure "boom" none [] none) ∧
    (_paginated_request failIssuer "tokens"
        (some [("startDate", JVal.str "2023-01-01"), ("endDate", JVal.str "2023-03-15")])
        29 none).issued
      = (([((some (JVal.str "2023-01-01") : Option JVal), (some (JVal.str "2023-01-30") : Option JVal)),
           (some (JVal.str "2023-01-30"), some (JVal.str "2023-02-28")),
           (some (JVal.str "2023-02-28"), some (JVal.str "2023-03-15"))].take (1 + 1)).map
          (chunkParams (setupParams ((some [("startDate", JVal.str "2023-01-01"),
              ("endDate", JVal.str "2023-03-15")]).getD []) (resolvedLimit "tokens" none))
            (resolvedLimit "tokens" none))) :=
  paginated_request_fail_fast failIssuer "tokens"
    (some [("startDate", JVal.str "2023-01-01"), ("endDate", JVal.str "2023-03-15")])
    29 none
    [((some (JVal.str "2023-01-01") : Option JVal), (some (JVal.str "2023-01-30") : Option JVal)),
     (some (JVal.str "2023-01-30"), some (JVal.str "2023-02-28")),
     (some (JVal.str "2023-02-28"), some (JVal.str "2023-03-15"))]
    1 ((some (JVal.str "2023-01-30") : Option JVal), (some (JVal.str "2023-02-28") : Option JVal))
    (.requestFailure "boom" none [] none)
    rfl rfl
    (by
      intro i w hi hw
      have hi0 : i = 0 := by omega
      subst hi0
      simp only [List.getElem?_cons_zero, Option.some.injEq] at hw
      subst hw
      exact ⟨_, rfl, by unfold keysNodup; decide, Or.inr ⟨_, rfl⟩⟩)
    rfl

/-- C7: once every chunk has been processed, `_paginated_request` returns the
combined metadata with its `data` key set to the accumulated records when
any metadata was collected; otherwise `{ data: records }` when the
accumulated sequence is non-empty and its first element is a mapping;
otherwise the bare accumulated sequence. -/
theorem paginated_request_final_shape
    (issue : Params → Except PyErr JVal) (ep : String) (pOpt : Option Params)
    (md : Nat) (cl : Option Int)
    (chunks : List Window) (tr : List Params) (ad : List JVal) (m : Params)
    (hch : dateChunksE (pOpt.getD []) md = .ok chunks)
    (hrun : runChunks issue (setupParams (pOpt.getD []) (resolvedLimit ep cl))
        (resolvedLimit ep cl) chunks [] [] = (tr, .ok (ad, m))) :
    (m.isEmpty = false →
      (_paginated_request issue ep pOpt md cl).result
        = .ok (JVal.obj (pset m "data" (JVal.arr ad)))) ∧
    (m.isEmpty = true → headIsObj ad = true →
      (_paginated_request issue ep pOpt md cl).result
        = .ok (JVal.obj [("data", JVal.arr ad)])) ∧
    (m.isEmpty = true → headIsObj ad = false →
      (_paginated_request issue ep pOpt md cl).result = .ok (JVal.arr ad)) ∧
    (headIsObj ad = true ↔ ∃ kvs rest, ad = JVal.obj kvs :: rest) := by
  have hresult : (_paginated_request issue ep pOpt md cl).result
      = .ok (finalResponse ad m) := by
    simp only [_paginated_request, hch, hrun]
  refine ⟨?_, ?_, ?_, ?_⟩
  · intro hm
    rw [hresult]
    simp only [finalResponse, hm, if_true]
  · intro hm hh
    rw [hresult]
    simp only [finalResponse, hm, hh]
    simp
  · intro hm hh
    rw [hresult]
    simp only [finalResponse, hm, hh]
    simp
  · cases ad with
    | nil => simp [headIsObj]
    | cons a l =>
      cases a with
      | obj kvs =>
        simp only [headIsObj]
        exact ⟨fun _ => ⟨kvs, l, rfl⟩, fun _ => trivial⟩
      | null => simp [headIsObj]
      | bool b => simp [headIsObj]
      | num n => simp [headIsObj]
      | str s => simp [headIsObj]
      | arr xs => simp [headIsObj]

/-- C7 witness: a single chunk with one metadata key yields the metadata
mapping with `data` set to the accumulated records. -/
theorem paginated_request_final_shape_witness :
    (_paginated_request metaIssuer "price" none 29 none).result
      = .ok (JVal.obj (pset [("total", JVal.num 5)] "data" (JVal.arr [JVal.num 1]))) :=
  (paginated_request_final_shape metaIssuer "price" none 29 none
    [(none, none)] [[("limit", JVal.num 1000), ("page", JVal.num 0)]]
    [JVal.num 1] [("total", JVal.num 5)] rfl rfl).1 rfl

theorem handleOutcome_spec (o : TransportOutcome) :
    ((∃ pe, handleOutcome o = .error pe) ↔
      ¬ ∃ resp v, o = .ok resp ∧ (resp.status < 400 ∨ 600 ≤ resp.status) ∧
        resp.json = some v) ∧
    (∀ msg, o = .netErr msg →
      handleOutcome o = .error (.requestFailure msg none [] none)) ∧
    (∀ resp, o = .ok resp → 400 ≤ resp.status → resp.status < 600 →
      handleOutcome o
        = .error (.requestFailure "HTTP error" (some resp.status) resp.headers
            (some resp.text))) ∧
    (∀ resp v, o = .ok resp → (resp.status < 400 ∨ 600 ≤ resp.status) → resp.json = some v →
      handleOutcome o = .ok v) := by
  cases o with
  | netErr msg =>
    refine ⟨⟨?_, ?_⟩, ?_, ?_, ?_⟩
    · rintro - ⟨resp, v, h, -, -⟩
      exact TransportOutcome.noConfusion h
    · intro
      exact ⟨_, rfl⟩
    · intro msg' h
      cases h
      rfl
    · intro resp h
      exact absurd h (by simp)
    · intro resp v h
      exact absurd h (by simp)
  | ok resp =>
    by_cases h4 : 400 ≤ resp.status ∧ resp.status < 600
    · have hv : handleOutcome (.ok resp)
          = .error (.requestFailure "HTTP error" (some resp.status) resp.headers
              (some resp.text)) := by
        simp [handleOutcome, h4]
      refine ⟨⟨?_, ?_⟩, ?_, ?_, ?_⟩
      · rintro - ⟨resp', v, h, hout, -⟩
        cases h
        rcases hout with hout | hout <;> omega
      · intro
        exact ⟨_, hv⟩
      · intro msg h
        exact absurd h (by simp)
      · intro resp' h h4' h6'
        cases h
        exact hv
      · intro resp' v h hout
        cases h
        rcases hout with hout | hout <;> exact absurd h4 (by omega)
    · have hrange : resp.status < 400 ∨ 600 ≤ resp.status := by omega
      cases hj : resp.json with
      | some v0 =>
        have hv : handleOutcome (.ok resp) = .ok v0 := by
          simp [handleOutcome, h4, hj]
        refine ⟨⟨?_, ?_⟩, ?_, ?_, ?_⟩
        · rintro ⟨pe, hpe⟩
          rw [hv] at hpe
          exact Except.noConfusion hpe
        · intro hn
          exact absurd ⟨resp, v0, rfl, hrange, hj⟩ hn
        · intro msg h
          exact absurd h (by simp)
        · intro resp' h h4' h6'
          cases h
          exact absurd ⟨h4', h6'⟩ h4
        · intro resp' v h hout hj'
          cases h
          rw [hj'] at hj
          cases hj
          exact hv
      | none =>
        have hv : handleOutcome (.ok resp) = .error .jsonDecodeError := by
          simp [handleOutcome, h4, hj]
        refine ⟨⟨?_, ?_⟩, ?_, ?_, ?_⟩
        · rintro - ⟨resp', v, h, -, hj'⟩
          cases h
          rw [hj] at hj'
          exact Option.noConfusion hj'
        · intro
          exact ⟨_, hv⟩
        · intro msg h
          exact absurd h (by simp)
        · intro resp' h h4' h6'
          cases h
          exact absurd ⟨h4', h6'⟩ h4
        · intro resp' v h hout hj'
          cases h
          rw [hj] at hj'
          exact Option.noConfusion hj'

/-- C8 counterexample: the claimed "raises exactly when a transport error
occurs or the status is at least 400" fails in both directions. An HTTP 200
response whose body is not valid JSON makes `_request` raise (the
`response.json()` parse failure, itself a RequestException in the `requests`
library) with no transport error and a status below 400; and a response with
the nonstandard status 999 and a valid JSON body is returned parsed rather
than raised, because `raise_for_status()` only raises for statuses in
400..599. -/
theorem request_json_decode_cex :
    t200bad (HttpReq.get ("b" ++ "/" ++ "tokens") (baseHeaders "k") none)
      = .ok ⟨200, [], "not json", none⟩ ∧
    (_request t200bad "b" "k" "get" "tokens" none none).2 = .error PyErr.jsonDecodeError ∧
    t999 (HttpReq.get ("b" ++ "/" ++ "tokens") (baseHeaders "k") none)
      = .ok ⟨999, [], "{}", some (JVal.obj [])⟩ ∧
    (_request t999 "b" "k" "get" "tokens" none none).2 = .ok (JVal.obj []) :=
  ⟨rfl, rfl, rfl, rfl⟩

/-- C8 (amended): for a supported method, `_request` makes exactly one
transport call (no retry) and raises exactly when a transport error occurs,
the HTTP status lies in 400..599 (the only range `raise_for_status` raises
for), or the remaining response body fails to parse as JSON; an HTTP-status
failure carries the status code, response headers and body; on every
remaining outcome the parsed JSON body is returned. -/
theorem request_failure_characterization
    (transport : HttpReq → TransportOutcome) (base key method ep : String)
    (params : Option Params) (jd : Option JVal)
    (hm : pyLower method = "get" ∨ pyLower method = "post") :
    ∃ req, (_request transport base key method ep params jd).1 = [req] ∧
      (((∃ pe, (_request transport base key method ep params jd).2 = .error pe) ↔
        ¬ ∃ resp v, transport req = .ok resp ∧ (resp.status < 400 ∨ 600 ≤ resp.status) ∧
          resp.json = some v) ∧
      (∀ msg, transport req = .netErr msg →
        (_request transport base key method ep params jd).2
          = .error (.requestFailure msg none [] none)) ∧
      (∀ resp, transport req = .ok resp → 400 ≤ resp.status → resp.status < 600 →
        (_request transport base key method ep params jd).2
          = .error (.requestFailure "HTTP error" (some resp.status) resp.headers
              (some resp.text))) ∧
      (∀ resp v, transport req = .ok resp → (resp.status < 400 ∨ 600 ≤ resp.status) →
        resp.json = some v →
        (_request transport base key method ep params jd).2 = .ok v)) := by
  rcases hm with hg | hp
  · refine ⟨HttpReq.get (base ++ "/" ++ ep) (baseHeaders key) params, ?_, ?_⟩
    · simp only [_request, hg]
      simp
    · have h2 : (_request transport base key method ep params jd).2
          = handleOutcome (transport (HttpReq.get (base ++ "/" ++ ep) (baseHeaders key)
              params)) := by
        simp only [_request, hg]
        simp
      rw [h2]
      exact handleOutcome_spec _
  · refine ⟨HttpReq.post (base ++ "/" ++ ep)
      (baseHeaders key ++ [("content-type", "application/json")]) jd, ?_, ?_⟩
    · simp only [_request, hp]
      simp
    · have h2 : (_request transport base key method ep params jd).2
          = handleOutcome (transport (HttpReq.post (base ++ "/" ++ ep)
              (baseHeaders key ++ [("content-type", "application/json")]) jd)) := by
        simp only [_request, hp]
        simp
      rw [h2]
      exact handleOutcome_spec _

/-- C8 witness: a GET against a transport answering HTTP 500. -/
theorem request_failure_characterization_witness :
    (pyLower "get" = "get" ∨ pyLower "get" = "post") ∧
    (∃ req, (_request t500 "b" "k" "get" "tokens" none none).1 = [req] ∧
      (((∃ pe, (_request t500 "b" "k" "get" "tokens" none none).2 = .error pe) ↔
        ¬ ∃ resp v, t500 req = .ok resp ∧ (resp.status < 400 ∨ 600 ≤ resp.status) ∧
          resp.json = some v) ∧
      (∀ msg, t500 req = .netErr msg →
        (_request t500 "b" "k" "get" "tokens" none none).2
          = .error (.requestFailure msg none [] none)) ∧
      (∀ resp, t500 req = .ok resp → 400 ≤ resp.status → resp.status < 600 →
        (_request t500 "b" "k" "get" "tokens" none none).2
          = .error (.requestFailure "HTTP error" (some resp.status) resp.headers
              (some resp.text))) ∧
      (∀ resp v, t500 req = .ok resp → (resp.status < 400 ∨ 600 ≤ resp.status) →
        resp.json = some v →
        (_request t500 "b" "k" "get" "tokens" none none).2 = .ok v))) :=
  ⟨Or.inl rfl,
   request_failure_characterization t500 "b" "k" "get" "tokens" none none (Or.inl rfl)⟩

/-- C10: for POST, `_request` serializes only `json_data` and ignores
`params` entirely: any two params arguments give identical runs (same
outbound request, same result), and the outbound POST request built for a
chunk-parameter dict with no `json_data` — which is how `_paginated_request`
calls `_request` — carries `none` as its body, so none of the chunked limit,
page or date parameters is transmitted. -/
theorem request_post_ignores_params
    (transport : HttpReq → TransportOutcome) (base key ep : String) (jd : Option JVal) :
    (∀ p1 p2 : Option Params,
        _request transport base key "post" ep p1 jd
          = _request transport base key "post" ep p2 jd) ∧
    (∀ cp : Params,
        (_request transport base key "post" ep (some cp) none).1
          = [HttpReq.post (base ++ "/" ++ ep)
              (baseHeaders key ++ [("content-type", "application/json")]) none]) := by
  constructor
  · intro p1 p2
    rfl
  · intro cp
    rfl

/-- C9 witness: after a call with `page = 3` in the params, the caller's dict
has `limit` rewritten to the resolved 1000. -/
theorem paginated_request_param_mutation_witness :
    plookup (_paginated_request metaIssuer "tokens" (some [("page", JVal.num 3)]) 29
        none).finalParams "limit" = some (JVal.num 1000) :=
  (paginated_request_param_mutation metaIssuer "tokens" [("page", JVal.num 3)] 29 none).1 "limit"

/-- C10 witness: a POST issued for a concrete chunk-parameter dict transmits
no body. -/
theorem request_post_ignores_params_witness :
    (_request t500 "b" "k" "post" "tokens"
        (some [("limit", JVal.num 1000), ("page", JVal.num 0)]) none).1
      = [HttpReq.post ("b" ++ "/" ++ "tokens")
          (baseHeaders "k" ++ [("content-type", "application/json")]) none] :=
  (request_post_ignores_params t500 "b" "k" "tokens" none).2
    [("limit", JVal.num 1000), ("page", JVal.num 0)]

end TM
